import Mathlib

/-!
Verification of the Avatario videosdk plugin core against its
natural-language specification.

The Python source (avatario_plugin.py, api.py, meeting_utils.py) is shallowly
embedded below: queues become lists (front = oldest element), `asyncio.Event`
latches become booleans, byte strings become `List Nat`, and fallible code
returns `Except PyErr`.  Wall-clock sleeping is irrelevant to every claim
proved here (it never changes the data computed), so it is recorded only
where the retry logic observably sleeps.
-/

set_option maxRecDepth 4000

namespace Avatario

/-- Sample rate of the audio track (`AUDIO_SAMPLE_RATE = 48000`). -/
def AUDIO_SAMPLE_RATE : Nat := 48000

/-- Channel count (`AUDIO_CHANNELS = 1`). -/
def AUDIO_CHANNELS : Nat := 1

/-- Bytes per sample (`AUDIO_SAMPLE_WIDTH = 2`). -/
def AUDIO_SAMPLE_WIDTH : Nat := 2

/-- Samples per 20 ms frame: `int(0.02 * 48000) = 960`. -/
def AUDIO_SAMPLES_PER_FRAME : Nat := 960

/-- Bytes per audio chunk: `960 * 1 * 2 = 1920`. -/
def AUDIO_CHUNK_SIZE : Nat := AUDIO_SAMPLES_PER_FRAME * AUDIO_CHANNELS * AUDIO_SAMPLE_WIDTH

/-- Python exception values that the embedded code can raise.
`connectionExhausted` carries the stored `_last_error` (abstracted by its
`appError` code, `none` when no error was stored yet). -/
inductive PyErr where
  | appError (code : Nat)
  | typeErrorMissingLoopArg
  | connectionExhausted (last : Option Nat)
  | attributeErrorNoWs
  | jsonDecodeError
deriving DecidableEq, Repr

/-- Model of an `av.AudioFrame`: presentation timestamp, time base
(numerator, denominator), sample rate, and the raw s16 payload bytes. -/
structure AudioFrame where
  pts : Option Nat
  time_base : Option (Nat × Nat)
  sample_rate : Option Nat
  payload : List Nat
deriving DecidableEq, Repr

/-- Model of an `av.VideoFrame`: timestamp fields plus an opaque payload id. -/
structure VideoFrame where
  pts : Option Nat
  time_base : Option (Nat × Nat)
  data : Nat
deriving DecidableEq, Repr

/-- State of `AvatarioAudioTrack`: `readyState` (from the base track),
`_start_time is not None` as `started`, `_timestamp`, the bounded frame
queue (maxsize 10, front = oldest) and the raw `audio_data_buffer`. -/
structure AudioTrackState where
  readyState : String
  started : Bool
  timestamp : Nat
  queue : List AudioFrame
  buffer : List Nat
deriving DecidableEq, Repr

/-- `AvatarioAudioTrack._create_silence_frame`: an s16 mono frame of
`samples` samples whose planes are zero-filled (`bytes(p.buffer_size)`,
1920 bytes for 960 mono s16 samples), with `sample_rate` set. -/
def create_silence_frame : AudioFrame :=
  { pts := none
    time_base := none
    sample_rate := some AUDIO_SAMPLE_RATE
    payload := List.replicate AUDIO_CHUNK_SIZE 0 }

/-- `AvatarioAudioTrack.recv`: if `readyState` is not "live" the body raises
`MediaStreamError`, which the surrounding handler catches, returning a bare
silence frame with the state untouched.  Otherwise the first call sets
`_start_time` and zeroes `_timestamp`, later calls advance `_timestamp` by
`samples` (960); after the pacing sleep the frame is popped from the queue
(or a silence frame is synthesized when the queue is empty) and stamped with
the virtual pts, the fixed time base `1/48000` and the sample rate. -/
def recv (s : AudioTrackState) : AudioTrackState × AudioFrame :=
  if s.readyState ≠ "live" then
    (s, create_silence_frame)
  else
    let s1 := if s.started then { s with timestamp := s.timestamp + AUDIO_SAMPLES_PER_FRAME }
              else { s with started := true, timestamp := 0 }
    let pts := s1.timestamp
    match s1.queue with
    | [] =>
        ({ s1 with queue := [] },
         { create_silence_frame with
             pts := some pts
             time_base := some (1, AUDIO_SAMPLE_RATE)
             sample_rate := some AUDIO_SAMPLE_RATE })
    | f :: rest =>
        ({ s1 with queue := rest },
         { f with
             pts := some pts
             time_base := some (1, AUDIO_SAMPLE_RATE)
             sample_rate := some AUDIO_SAMPLE_RATE })

/-- `K` consecutive calls to `recv`, collecting the returned frames in call
order. -/
def recvN : AudioTrackState → Nat → AudioTrackState × List AudioFrame
  | s, 0 => (s, [])
  | s, k + 1 =>
      let p := recv s
      let rest := recvN p.1 k
      (rest.1, p.2 :: rest.2)

theorem recv_live_state (s : AudioTrackState) (h : s.readyState = "live") :
    (recv s).1.readyState = "live" ∧ (recv s).1.started = true ∧
    (recv s).1.timestamp = (if s.started then s.timestamp + AUDIO_SAMPLES_PER_FRAME else 0) := by
  unfold recv
  rw [h]
  simp only [ne_eq, not_true_eq_false, if_false]
  cases hs : s.started <;> simp [hs] <;> cases hq : s.queue <;> simp [hq, h]

theorem recv_live_pts (s : AudioTrackState) (h : s.readyState = "live") :
    (recv s).2.pts = some (if s.started then s.timestamp + AUDIO_SAMPLES_PER_FRAME else 0) := by
  unfold recv
  rw [h]
  simp only [ne_eq, not_true_eq_false, if_false]
  cases hs : s.started <;> cases hq : s.queue <;> simp [hs, hq]

theorem recvN_pts_from_started (k : Nat) :
    ∀ (s : AudioTrackState), s.readyState = "live" → s.started = true →
    (recvN s k).2.map AudioFrame.pts =
      (List.range k).map (fun i => some (s.timestamp + AUDIO_SAMPLES_PER_FRAME * (i + 1))) := by
  induction k with
  | zero => intro s _ _; simp [recvN]
  | succ k ih =>
      intro s hlive hstart
      have hst := recv_live_state s hlive
      have hpts := recv_live_pts s hlive
      rw [hstart] at hst hpts
      simp only [if_true] at hst hpts
      simp only [recvN, List.map_cons, hpts]
      rw [ih (recv s).1 hst.1 hst.2.1, hst.2.2]
      rw [List.range_succ_eq_map]
      simp only [List.map_cons, List.map_map]
      congr 1
      apply List.map_congr_left
      intro i _
      simp only [Function.comp_apply, Nat.succ_eq_add_one]
      congr 1
      ring

/-- Claim C1: for every K consecutive calls to the audio track's `recv`
starting from a fresh live track (`_start_time` unset), the pts stamped on
the returned frames are exactly `0, 960, 1920, …, 960*(K-1)`, advancing by
exactly 960 per call, regardless of queue contents at each pull. -/
theorem audio_recv_pts_sequence (s : AudioTrackState) (K : Nat)
    (hlive : s.readyState = "live") (hfresh : s.started = false) :
    (recvN s K).2.map AudioFrame.pts =
      (List.range K).map (fun i => some (AUDIO_SAMPLES_PER_FRAME * i)) := by
  cases K with
  | zero => simp [recvN]
  | succ k =>
      have hst := recv_live_state s hlive
      have hpts := recv_live_pts s hlive
      rw [hfresh] at hst hpts
      simp only [Bool.false_eq_true, if_false] at hst hpts
      simp only [recvN, List.map_cons, hpts]
      rw [recvN_pts_from_started k (recv s).1 hst.1 hst.2.1, hst.2.2]
      rw [List.range_succ_eq_map]
      simp only [List.map_cons, List.map_map]
      congr 1
      apply List.map_congr_left
      intro i _
      simp only [Function.comp_apply, Nat.succ_eq_add_one]
      congr 1
      ring

/-- Concrete instance of C1: three pulls from a fresh live track with an
empty queue are stamped 0, 960, 1920. -/
theorem audio_recv_pts_sequence_witness :
    (recvN ⟨"live", false, 0, [], []⟩ 3).2.map AudioFrame.pts =
      (List.range 3).map (fun i => some (AUDIO_SAMPLES_PER_FRAME * i)) :=
  audio_recv_pts_sequence ⟨"live", false, 0, [], []⟩ 3 rfl rfl

/-- Claim C2: `recv` is total (it returns a frame for every state — in the
source every exception is caught and converted to a silence frame), and
whenever the queue is empty at pull time the returned frame's payload is
all-zero bytes of length `samples_per_frame * channels * 2 = 1920`. -/
theorem audio_recv_silence_on_empty (s : AudioTrackState) (hq : s.queue = []) :
    (recv s).2.payload = List.replicate AUDIO_CHUNK_SIZE 0 ∧
    (recv s).2.payload.length = 1920 := by
  have hpay : (recv s).2.payload = List.replicate AUDIO_CHUNK_SIZE 0 := by
    unfold recv
    by_cases hl : s.readyState = "live"
    · rw [hl]
      simp only [ne_eq, not_true_eq_false, if_false]
      cases hs : s.started <;> simp [hs, hq, create_silence_frame]
    · simp [hl, create_silence_frame]
  refine ⟨hpay, ?_⟩
  rw [hpay, List.length_replicate]
  rfl

/-- Concrete instance of C2: a pull from a live track with empty queue
returns the 1920-byte zero payload. -/
theorem audio_recv_silence_on_empty_witness :
    (recv ⟨"live", true, 960, [], []⟩).2.payload = List.replicate AUDIO_CHUNK_SIZE 0 ∧
    (recv ⟨"live", true, 960, [], []⟩).2.payload.length = 1920 :=
  audio_recv_silence_on_empty ⟨"live", true, 960, [], []⟩ rfl

/-- The push pattern shared by `AvatarioAudioTrack.add_frame` and the loop in
`add_new_bytes`: `if self.queue.full(): self.queue.get_nowait()` followed by
`self.queue.put_nowait(x)` — on a full queue (length at capacity) the oldest
element is removed first, then the new element is appended. -/
def pushEvictOldest (cap : Nat) (q : List α) (x : α) : List α :=
  (if cap ≤ q.length then q.tail else q) ++ [x]

/-- `AvatarioAudioTrack.add_frame` on the maxsize-10 frame queue. -/
def audio_add_frame (q : List AudioFrame) (f : AudioFrame) : List AudioFrame :=
  pushEvictOldest 10 q f

/-- `AvatarioVideoTrack.add_frame`: the source first drains the whole queue
(`while not self.queue.empty(): self.queue.get_nowait()`) and then
`put_nowait(frame)`, so the queue afterwards holds exactly the new frame. -/
def video_add_frame (_q : List VideoFrame) (f : VideoFrame) : List VideoFrame :=
  [] ++ [f]

theorem pushEvictOldest_length_le (cap : Nat) (hcap : 0 < cap) (q : List α) (x : α)
    (h : q.length ≤ cap) : (pushEvictOldest cap q x).length ≤ cap := by
  unfold pushEvictOldest
  by_cases hfull : cap ≤ q.length
  · rw [if_pos hfull]
    cases q with
    | nil =>
        exfalso
        simp only [List.length_nil, Nat.le_zero] at hfull
        omega
    | cons a t =>
        simp only [List.tail_cons, List.length_append, List.length_cons,
          List.length_nil] at *
        omega
  · rw [if_neg hfull]
    simp only [List.length_append, List.length_cons, List.length_nil]
    omega

theorem foldl_pushEvictOldest (cap : Nat) (hcap : 0 < cap) :
    ∀ (xs q : List α), q.length ≤ cap →
    List.foldl (pushEvictOldest cap) q xs = (q ++ xs).drop (q.length + xs.length - cap) := by
  intro xs
  induction xs with
  | nil =>
      intro q hq
      simp only [List.foldl_nil, List.append_nil, List.length_nil, Nat.add_zero]
      rw [Nat.sub_eq_zero_of_le hq, List.drop_zero]
  | cons x xs ih =>
      intro q hq
      rw [List.foldl_cons]
      rw [ih (pushEvictOldest cap q x) (pushEvictOldest_length_le cap hcap q x hq)]
      by_cases hfull : cap ≤ q.length
      · have hqcap : q.length = cap := Nat.le_antisymm hq hfull
        cases q with
        | nil => simp at hqcap; omega
        | cons a t =>
            have hlen : (pushEvictOldest cap (a :: t) x).length = cap := by
              unfold pushEvictOldest
              rw [if_pos hfull]
              simp only [List.tail_cons, List.length_append, List.length_cons,
                List.length_nil] at *
              omega
            rw [hlen]
            unfold pushEvictOldest
            rw [if_pos hfull]
            simp only [List.tail_cons, List.length_cons] at hqcap ⊢
            have h1 : cap + xs.length - cap = xs.length := by omega
            have h2 : t.length + 1 + (xs.length + 1) - cap = xs.length + 1 := by omega
            rw [h1, h2]
            simp only [List.cons_append, List.drop_succ_cons, List.append_assoc,
              List.singleton_append, List.nil_append]
      · unfold pushEvictOldest
        rw [if_neg hfull]
        simp only [List.length_append, List.length_cons, List.length_nil,
          List.append_assoc, List.singleton_append]
        congr 1
        omega

/-- Counterexample to claim C3 as stated: the claim asserts that a push onto
a full queue evicts exactly one (the oldest) element and that after N > C
pushes the queue holds the last C pushed elements, for the video queue with
C = 2 as well.  On the code, `AvatarioVideoTrack.add_frame` drains the whole
queue before inserting: three pushes leave only the last frame, not the last
two. -/
theorem video_queue_not_last_two :
    List.foldl video_add_frame []
        [⟨none, none, 1⟩, ⟨none, none, 2⟩, ⟨none, none, 3⟩] = [⟨none, none, 3⟩] ∧
    ([⟨none, none, 3⟩] : List VideoFrame) ≠
      List.drop 1 [⟨none, none, 1⟩, ⟨none, none, 2⟩, ⟨none, none, 3⟩] := by
  constructor
  · rfl
  · decide

/-- Claim C3 (amended): the audio queue (capacity 10, evict-oldest push of
`AvatarioAudioTrack.add_frame`) keeps exactly the last 10 pushed frames in
original relative order, its length never exceeds 10, and a push onto a full
queue removes exactly the oldest element; the video queue
(`AvatarioVideoTrack.add_frame`) is latest-wins — every push drains all
buffered frames and leaves exactly the newly pushed one. -/
theorem bounded_queue_behavior (xs : List AudioFrame) (q : List AudioFrame)
    (f : AudioFrame) (v : List VideoFrame) (g : VideoFrame) (hq : q.length ≤ 10) :
    List.foldl audio_add_frame [] xs = xs.drop (xs.length - 10) ∧
    (audio_add_frame q f).length ≤ 10 ∧
    (q.length = 10 → audio_add_frame q f = q.tail ++ [f]) ∧
    video_add_frame v g = [g] := by
  refine ⟨?_, ?_, ?_, rfl⟩
  · have h := foldl_pushEvictOldest 10 (by omega) xs ([] : List AudioFrame) (by simp)
    simp only [List.length_nil, Nat.zero_add, List.nil_append] at h
    exact h
  · exact pushEvictOldest_length_le 10 (by omega) q f hq
  · intro h10
    unfold audio_add_frame pushEvictOldest
    rw [if_pos (by omega)]

/-- Concrete instance of the amended C3: twelve audio pushes keep the last
ten frames; a push onto the full queue drops exactly the oldest. -/
theorem bounded_queue_behavior_witness :
    List.foldl audio_add_frame []
        ((List.range 12).map (fun i => ⟨some i, none, none, []⟩)) =
      (((List.range 12).map (fun i => (⟨some i, none, none, []⟩ : AudioFrame))).drop
        (((List.range 12).map (fun i => (⟨some i, none, none, []⟩ : AudioFrame))).length - 10)) ∧
    (audio_add_frame ((List.range 10).map (fun i => ⟨some i, none, none, []⟩))
        ⟨some 10, none, none, []⟩).length ≤ 10 ∧
    (((List.range 10).map (fun i => (⟨some i, none, none, []⟩ : AudioFrame))).length = 10 →
      audio_add_frame ((List.range 10).map (fun i => ⟨some i, none, none, []⟩))
          ⟨some 10, none, none, []⟩ =
        (((List.range 10).map (fun i => (⟨some i, none, none, []⟩ : AudioFrame))).tail ++
          [⟨some 10, none, none, []⟩])) ∧
    video_add_frame [⟨none, none, 7⟩] ⟨none, none, 8⟩ = [⟨none, none, 8⟩] :=
  bounded_queue_behavior ((List.range 12).map (fun i => ⟨some i, none, none, []⟩))
    ((List.range 10).map (fun i => ⟨some i, none, none, []⟩)) ⟨some 10, none, none, []⟩
    [⟨none, none, 7⟩] ⟨none, none, 8⟩ (by decide)

/-- Result of running `AvatarioAvatar._initialize_connection`: the value or
exception, how many times `create_conversation` was attempted, and the list
of backoff sleeps (in seconds) that were performed. -/
structure InitOutcome where
  result : Except PyErr Unit
  attemptsMade : Nat
  sleeps : List Nat
deriving Repr

/-- `AvatarioAvatar._initialize_connection(self, loop)`, embedded faithfully.
`outcomes i` is the behaviour of the i-th `create_conversation` call
(`none` = success, `some c` = it raises `appError c`).  `loopArgGiven`
records whether the required positional parameter `loop` was supplied at
the call site: the retry path calls `self._initialize_connection()` with no
argument, which Python rejects with a `TypeError` at the call itself, so the
recursive attempt never runs.  On entry with an exhausted budget the method
raises `Exception(f"Failed to connect ... Last error: ...")` (modelled as
`connectionExhausted`); a failure with remaining budget stores the error,
sleeps 2 seconds and retries; a failure with no remaining budget re-raises
the attempt's error. -/
def initConnection (outcomes : Nat → Option Nat) :
    Bool → Nat → Nat → Option Nat → InitOutcome
  | false, _, _, _ =>
      { result := .error .typeErrorMissingLoopArg, attemptsMade := 0, sleeps := [] }
  | true, _, 0, lastErr =>
      { result := .error (.connectionExhausted lastErr), attemptsMade := 0, sleeps := [] }
  | true, idx, r + 1, _ =>
      match outcomes idx with
      | none => { result := .ok (), attemptsMade := 1, sleeps := [] }
      | some e =>
          if r > 0 then
            let rest := initConnection outcomes false (idx + 1) r (some e)
            { result := rest.result
              attemptsMade := 1 + rest.attemptsMade
              sleeps := 2 :: rest.sleeps }
          else
            { result := .error (.appError e), attemptsMade := 1, sleeps := [] }

/-- `AvatarioAvatar.connect`'s use of the retry unit: `_retry_count` starts
at 3, no error stored yet, and the outer call passes `loop`. -/
def connect (outcomes : Nat → Option Nat) : InitOutcome :=
  initConnection outcomes true 0 3 none

/-- Claim C4 is a code bug: with a first attempt that fails and a second
that would succeed, `connect()` does not succeed on attempt 2 — after the
2-second backoff the retry call `self._initialize_connection()` omits the
required positional argument `loop`, so it raises `TypeError` and only one
attempt is ever made (likewise three consecutive failures can never yield
`ConnectionExhaustedError` after three attempts). -/
theorem connect_retry_is_broken :
    connect (fun i => if i = 0 then some 1 else none) =
      { result := .error .typeErrorMissingLoopArg, attemptsMade := 1, sleeps := [2] } := by
  rfl

/-- State of the `AvatarioAvatar` fields consulted by
`handle_audio_input`, plus the unbounded `tts_audio` relay queue. -/
structure AvatarState where
  run : Bool
  stopping : Bool
  ready : Bool
  tts_audio : List (List Nat)
deriving DecidableEq, Repr

/-- The chunk loop of `AvatarioAvatar._send_audio_data`:
`for i in range(0, len(data), 6000): chunk = data[i:i + 6000]` — consecutive
6000-byte slices, the last one possibly shorter, in original order. -/
def sendAudioChunks : List Nat → List (List Nat)
  | [] => []
  | a :: rest =>
      (a :: rest).take 6000 :: sendAudioChunks ((a :: rest).drop 6000)
termination_by d => d.length
decreasing_by
  simp only [List.length_drop, List.length_cons]
  omega

/-- `AvatarioAvatar.handle_audio_input`: returns unchanged when not running
or stopping; when ready, pads odd-length data with one zero byte and puts
each 6000-byte chunk on the `tts_audio` queue; when not ready, the log line
evaluates `self.ws`, an attribute that is never defined on `AvatarioAvatar`,
so the call raises `AttributeError`. -/
def handle_audio_input (s : AvatarState) (audio_data : List Nat) :
    Except PyErr AvatarState :=
  if s.run = false ∨ s.stopping = true then .ok s
  else if s.ready = true then
    let padded := if audio_data.length % 2 ≠ 0 then audio_data ++ [0] else audio_data
    .ok { s with tts_audio := s.tts_audio ++ sendAudioChunks padded }
  else
    .error .attributeErrorNoWs

/-- Claim C5 is a code bug: called while running, not stopping, and not
ready, `handle_audio_input` raises `AttributeError` (its log line reads
`self.ws`, which `AvatarioAvatar` never defines) instead of logging and
returning silently. -/
theorem handle_audio_input_not_ready_raises :
    handle_audio_input ⟨true, false, false, []⟩ [1, 2] = .error .attributeErrorNoWs := by
  rfl

theorem sendAudioChunks_join (d : List Nat) : (sendAudioChunks d).flatten = d := by
  induction d using sendAudioChunks.induct with
  | case1 => rw [sendAudioChunks]; rfl
  | case2 a rest ih =>
      rw [sendAudioChunks]
      simp only [List.flatten_cons]
      rw [ih, List.take_append_drop]

theorem sendAudioChunks_mem_length (d : List Nat) :
    ∀ c ∈ sendAudioChunks d, 0 < c.length ∧ c.length ≤ 6000 := by
  induction d using sendAudioChunks.induct with
  | case1 => intro c hc; simp [sendAudioChunks] at hc
  | case2 a rest ih =>
      intro c hc
      rw [sendAudioChunks] at hc
      rw [List.mem_cons] at hc
      rcases hc with hc | hc
      · subst hc
        constructor
        · simp only [List.length_take, List.length_cons]
          omega
        · simp only [List.length_take]
          omega
      · exact ih c hc

theorem sendAudioChunks_ne_nil (a : Nat) (rest : List Nat) :
    sendAudioChunks (a :: rest) ≠ [] := by
  rw [sendAudioChunks]
  simp

theorem sendAudioChunks_dropLast_length (d : List Nat) :
    ∀ c ∈ (sendAudioChunks d).dropLast, c.length = 6000 := by
  induction d using sendAudioChunks.induct with
  | case1 => intro c hc; simp [sendAudioChunks] at hc
  | case2 a rest ih =>
      intro c hc
      rw [sendAudioChunks] at hc
      cases hdrop : (a :: rest).drop 6000 with
      | nil =>
          rw [hdrop] at hc
          simp [sendAudioChunks] at hc
      | cons b t =>
          rw [hdrop] at hc
          rw [List.dropLast_cons_of_ne_nil (hdrop ▸ sendAudioChunks_ne_nil b t)] at hc
          rw [List.mem_cons] at hc
          rcases hc with hc | hc
          · subst hc
            have hlen : 6000 < (a :: rest).length := by
              have h2 := congrArg List.length hdrop
              simp only [List.length_drop, List.length_cons] at h2
              simp only [List.length_cons]
              omega
            simp only [List.length_take]
            omega
          · exact ih c (hdrop ▸ hc)

/-- Claim C6: for every byte string passed to `handle_audio_input` while
running and ready, odd-length input is padded with exactly one zero byte;
the padded data is split in order into consecutive chunks of exactly 6000
bytes except a shorter final chunk, and the chunks are appended to the
`tts_audio` queue in original order (their concatenation re-assembles the
padded data). -/
theorem handle_audio_input_chunking (s : AvatarState) (b : List Nat)
    (hrun : s.run = true) (hstop : s.stopping = false) (hready : s.ready = true) :
    handle_audio_input s b =
      .ok { s with tts_audio := s.tts_audio ++
        sendAudioChunks (if b.length % 2 ≠ 0 then b ++ [0] else b) } ∧
    (b.length % 2 = 1 →
      (if b.length % 2 ≠ 0 then b ++ [0] else b) = b ++ [0]) ∧
    (b.length % 2 = 0 →
      (if b.length % 2 ≠ 0 then b ++ [0] else b) = b) ∧
    (sendAudioChunks (if b.length % 2 ≠ 0 then b ++ [0] else b)).flatten =
      (if b.length % 2 ≠ 0 then b ++ [0] else b) ∧
    (∀ c ∈ (sendAudioChunks (if b.length % 2 ≠ 0 then b ++ [0] else b)).dropLast,
      c.length = 6000) ∧
    (∀ c ∈ sendAudioChunks (if b.length % 2 ≠ 0 then b ++ [0] else b),
      0 < c.length ∧ c.length ≤ 6000) := by
  refine ⟨?_, ?_, ?_, sendAudioChunks_join _, sendAudioChunks_dropLast_length _,
    sendAudioChunks_mem_length _⟩
  · unfold handle_audio_input
    rw [hrun, hstop, hready]
    simp
  · intro hodd
    rw [if_pos (by omega)]
  · intro heven
    rw [if_neg (by omega)]

/-- Concrete instance of C6: a 3-byte input while ready is padded to 4
bytes and enqueued as a single chunk. -/
theorem handle_audio_input_chunking_witness :
    handle_audio_input ⟨true, false, true, []⟩ [5, 6, 7] =
      .ok { run := true, stopping := false, ready := true,
            tts_audio := [] ++ sendAudioChunks
              (if ([5, 6, 7] : List Nat).length % 2 ≠ 0 then [5, 6, 7] ++ [0] else [5, 6, 7]) } ∧
    (([5, 6, 7] : List Nat).length % 2 = 1 →
      (if ([5, 6, 7] : List Nat).length % 2 ≠ 0 then [5, 6, 7] ++ [0] else [5, 6, 7]) =
        [5, 6, 7] ++ [0]) ∧
    (([5, 6, 7] : List Nat).length % 2 = 0 →
      (if ([5, 6, 7] : List Nat).length % 2 ≠ 0 then [5, 6, 7] ++ [0] else [5, 6, 7]) =
        [5, 6, 7]) ∧
    (sendAudioChunks
        (if ([5, 6, 7] : List Nat).length % 2 ≠ 0 then [5, 6, 7] ++ [0] else [5, 6, 7])).flatten =
      (if ([5, 6, 7] : List Nat).length % 2 ≠ 0 then [5, 6, 7] ++ [0] else [5, 6, 7]) ∧
    (∀ c ∈ (sendAudioChunks
        (if ([5, 6, 7] : List Nat).length % 2 ≠ 0 then [5, 6, 7] ++ [0]
         else [5, 6, 7])).dropLast, c.length = 6000) ∧
    (∀ c ∈ sendAudioChunks
        (if ([5, 6, 7] : List Nat).length % 2 ≠ 0 then [5, 6, 7] ++ [0] else [5, 6, 7]),
      0 < c.length ∧ c.length ≤ 6000) :=
  handle_audio_input_chunking ⟨true, false, true, []⟩ [5, 6, 7] rfl rfl rfl

/-- Loop guard of `AvatarioParticipantHandler.get_output_audio`:
`while not self.ipc_data["kill_signal"].is_set()`. -/
def audio_relay_guard (kill : Bool) : Bool := !kill

/-- Loop guard of `AvatarioParticipantHandler.get_output_video`:
`while not self.ipc_data["kill_signal"].is_set()`. -/
def video_relay_guard (kill : Bool) : Bool := !kill

/-- Loop guard of `AvatarioMeetingHandler.send_tts_audio`: `while True` —
the kill latch is never consulted. -/
def tts_sender_guard (_kill : Bool) : Bool := true

/-- Whether a polling loop with guard `guard` executes its i-th iteration,
given the value `latch i` that the kill latch holds when the guard is
evaluated for iteration i: iteration i runs iff every guard evaluation up to
and including i came out true. -/
def loopIterates (guard : Bool → Bool) (latch : Nat → Bool) : Nat → Bool
  | 0 => guard (latch 0)
  | i + 1 => loopIterates guard latch i && guard (latch (i + 1))

/-- The property claim C7 asserts of each consumer loop: once the latch
reads set, the loop executes no further iteration (it observes the latch
within one polling interval and terminates). -/
def observesKill (guard : Bool → Bool) : Prop :=
  ∀ (latch : Nat → Bool) (k : Nat), latch k = true → loopIterates guard latch k = false

/-- Counterexample to claim C7 as stated: the outbound tts audio sender loop
(`send_tts_audio`) is `while True` and never reads the kill latch — with the
latch set from the very start it still executes every iteration, so it does
not observe the kill signal and does not terminate. -/
theorem tts_sender_ignores_kill : ¬ observesKill tts_sender_guard := by
  intro h
  have h1 := h (fun _ => true) 1 rfl
  simp [loopIterates, tts_sender_guard] at h1

theorem loopIterates_false_of_guard_false (guard : Bool → Bool) (latch : Nat → Bool)
    (k : Nat) (h : guard (latch k) = false) : loopIterates guard latch k = false := by
  cases k with
  | zero => simpa [loopIterates] using h
  | succ i => simp [loopIterates, h]

/-- Claim C7 (amended): the inbound audio relay loop and the inbound video
relay loop check the kill latch before every iteration and execute no
iteration whose guard sees the latch set (so each terminates within one
polling interval of the latch being set); the outbound tts sender loop,
however, is `while True` and executes every iteration regardless of the
latch.  (The latch itself is only ever `.set()` in the source — `aclose`
below — never cleared.) -/
theorem consumer_loops_kill_behavior :
    observesKill audio_relay_guard ∧ observesKill video_relay_guard ∧
    (∀ (latch : Nat → Bool) (i : Nat), loopIterates tts_sender_guard latch i = true) := by
  refine ⟨?_, ?_, ?_⟩
  · intro latch k hk
    exact loopIterates_false_of_guard_false _ _ _ (by simp [audio_relay_guard, hk])
  · intro latch k hk
    exact loopIterates_false_of_guard_false _ _ _ (by simp [video_relay_guard, hk])
  · intro latch i
    induction i with
    | zero => rfl
    | succ i ih => simp [loopIterates, ih, tts_sender_guard]

/-- Concrete instance of the amended C7: with the latch set from iteration 0
the relay loops execute nothing, while the tts sender still runs iteration 2. -/
theorem consumer_loops_kill_behavior_witness :
    loopIterates audio_relay_guard (fun _ => true) 0 = false ∧
    loopIterates video_relay_guard (fun _ => true) 0 = false ∧
    loopIterates tts_sender_guard (fun _ => true) 2 = true :=
  ⟨consumer_loops_kill_behavior.1 (fun _ => true) 0 rfl,
   consumer_loops_kill_behavior.2.1 (fun _ => true) 0 rfl,
   consumer_loops_kill_behavior.2.2 (fun _ => true) 2⟩

/-- The `AvatarioAvatar` lifecycle fields touched by `aclose` and
`_cleanup_connections`. -/
structure LifecycleState where
  stopping : Bool
  run : Bool
  ready : Bool
  kill_signal : Bool
  is_speaking : Bool
  speech_timeout_cancelled : Bool
deriving DecidableEq, Repr

/-- `AvatarioAvatar._cleanup_connections`: clears the ready flag, clears
`_is_speaking`, and cancels a pending speech-timeout task. -/
def cleanup_connections (s : LifecycleState) : LifecycleState :=
  { s with ready := false, is_speaking := false, speech_timeout_cancelled := true }

/-- `AvatarioAvatar.aclose`: returns immediately when already stopping;
otherwise sets `_stopping`, clears `run`, cancels the speech-timeout task,
sets the kill latch, and runs `_cleanup_connections`. -/
def aclose (s : LifecycleState) : LifecycleState :=
  if s.stopping then s
  else
    cleanup_connections
      { s with stopping := true, run := false, speech_timeout_cancelled := true,
               kill_signal := true }

/-- Claim C8: `aclose` is idempotent — a second call after a first completed
call changes nothing (the state after two calls equals the state after one),
and one completed call from a non-stopping state leaves the kill latch set,
the run flag cleared, the ready flag cleared, and the stopping flag set. -/
theorem aclose_idempotent (s : LifecycleState) :
    aclose (aclose s) = aclose s ∧
    (s.stopping = false →
      (aclose s).kill_signal = true ∧ (aclose s).run = false ∧
      (aclose s).ready = false ∧ (aclose s).stopping = true) := by
  constructor
  · by_cases h : s.stopping
    · simp [aclose, h]
    · simp [aclose, cleanup_connections, h]
  · intro h
    simp [aclose, cleanup_connections, h]

/-- Concrete instance of C8 at a freshly connected state. -/
theorem aclose_idempotent_witness :
    aclose (aclose ⟨false, true, true, false, true, false⟩) =
      aclose ⟨false, true, true, false, true, false⟩ ∧
    ((⟨false, true, true, false, true, false⟩ : LifecycleState).stopping = false →
      (aclose ⟨false, true, true, false, true, false⟩).kill_signal = true ∧
      (aclose ⟨false, true, true, false, true, false⟩).run = false ∧
      (aclose ⟨false, true, true, false, true, false⟩).ready = false ∧
      (aclose ⟨false, true, true, false, true, false⟩).stopping = true) :=
  aclose_idempotent ⟨false, true, true, false, true, false⟩

/-- The claims (JWT payload) built by `meeting_utils.generate_token` for a
given (possibly absent) room id. -/
structure TokenPayload where
  exp_seconds : Nat
  permissions : List String
  roomId : Option String
  version : Option Nat
  roles : Option (List String)
deriving DecidableEq, Repr

/-- `meeting_utils.generate_token`: a 600-second expiry, join+moderate
permissions, `roomId` bound into the claim, and — when a meeting id is
present — `version = 2` and `roles = ["rtc"]`. -/
def generate_token (meeting_id : Option String) : TokenPayload :=
  { exp_seconds := 600
    permissions := ["allow_join", "allow_mod"]
    roomId := meeting_id
    version := if meeting_id.isSome then some 2 else none
    roles := if meeting_id.isSome then some ["rtc"] else none }

/-- The HTTP response of the `POST {endpoint}/rooms` call as `create_meeting`
observes it: the status code and the parsed JSON body's `roomId` key
(`body = none` models a body that is not valid JSON, on which `.json()`
raises; `body = some none` a JSON body without `roomId`). -/
structure RoomsResponse where
  status : Nat
  body : Option (Option String)
deriving DecidableEq, Repr

/-- The credentials dictionary returned by `create_meeting` on the backend
path (no caller-supplied auth token). -/
structure MeetingCreds where
  id : Option String
  token : TokenPayload
  backend_token : TokenPayload
deriving DecidableEq, Repr

/-- `meeting_utils.create_meeting` (backend path): posts to the rooms
endpoint, parses the JSON body and reads `roomId` with `.get` (yielding
`None` when absent), then mints the two tokens.  The source never inspects
`response.status_code` and calls no `raise_for_status`, so no status check
of any kind is performed. -/
def create_meeting (resp : RoomsResponse) : Except PyErr MeetingCreds :=
  match resp.body with
  | none => .error .jsonDecodeError
  | some room_id =>
      .ok { id := room_id
            token := generate_token room_id
            backend_token := generate_token room_id }

/-- Counterexample to claim C9 as stated: a 500 response with a JSON error
body (no `roomId` key) does not make `create_meeting` fail — it returns
credentials whose id is `None`, so the operation neither raises a
`TransportError` on non-2xx nor refuses to derive credentials from it. -/
theorem create_meeting_no_status_check :
    ¬ (∀ resp : RoomsResponse, resp.status / 100 ≠ 2 →
        ∃ e, create_meeting resp = .error e) := by
  intro h
  obtain ⟨e, he⟩ := h ⟨500, some none⟩ (by decide)
  simp [create_meeting] at he

/-- Claim C9 (amended): `create_meeting` ignores the HTTP status entirely —
for every response whose body parses as JSON it returns credentials whose
room id is the body's `roomId` (possibly `None`), with both tokens bound to
that room id, carrying a 600-second expiry and join+moderate permissions;
it fails only when the body is not JSON, never with a transport error on a
non-2xx status. -/
theorem create_meeting_ignores_status (resp : RoomsResponse) (rid : Option String)
    (hbody : resp.body = some rid) :
    create_meeting resp =
      .ok { id := rid, token := generate_token rid, backend_token := generate_token rid } ∧
    (generate_token rid).exp_seconds = 600 ∧
    (generate_token rid).roomId = rid ∧
    (generate_token rid).permissions = ["allow_join", "allow_mod"] := by
  refine ⟨?_, rfl, rfl, rfl⟩
  unfold create_meeting
  rw [hbody]

/-- Concrete instance of the amended C9: a 500 response with an empty JSON
body still yields credentials (with id `None`). -/
theorem create_meeting_ignores_status_witness :
    create_meeting ⟨500, some none⟩ =
      .ok { id := none, token := generate_token none, backend_token := generate_token none } ∧
    (generate_token none).exp_seconds = 600 ∧
    (generate_token none).roomId = none ∧
    (generate_token none).permissions = ["allow_join", "allow_mod"] :=
  create_meeting_ignores_status ⟨500, some none⟩ none rfl

/-- `AvatarioAudioTrack.buildAudioFrames`: pads an odd-length chunk with one
zero byte and wraps the bytes as an s16 mono frame (the numpy round trip is
byte-preserving). -/
def buildAudioFrames (chunk : List Nat) : AudioFrame :=
  let chunk2 := if chunk.length % 2 ≠ 0 then chunk ++ [0] else chunk
  { pts := none, time_base := none, sample_rate := none, payload := chunk2 }

/-- The complete leading `chunk_size` (1920)-byte chunks of a byte buffer,
in order — exactly the chunks the `while len(buffer) >= chunk_size` loop of
`add_new_bytes` peels off. -/
def fullChunks (b : List Nat) : List (List Nat) :=
  if h : AUDIO_CHUNK_SIZE ≤ b.length then
    b.take AUDIO_CHUNK_SIZE :: fullChunks (b.drop AUDIO_CHUNK_SIZE)
  else []
termination_by b.length
decreasing_by
  simp only [List.length_drop]
  exact Nat.sub_lt (Nat.lt_of_lt_of_le (by decide) h) (by decide)

/-- The `while` loop of `AvatarioAudioTrack.add_new_bytes`: while at least
`chunk_size` bytes are buffered, split off the leading chunk, build a frame
from it and push it onto the bounded queue (dropping the oldest frame when
full). -/
def addLoop (buf : List Nat) (q : List AudioFrame) : List Nat × List AudioFrame :=
  if h : AUDIO_CHUNK_SIZE ≤ buf.length then
    addLoop (buf.drop AUDIO_CHUNK_SIZE)
      (pushEvictOldest 10 q (buildAudioFrames (buf.take AUDIO_CHUNK_SIZE)))
  else (buf, q)
termination_by buf.length
decreasing_by
  simp only [List.length_drop]
  exact Nat.sub_lt (Nat.lt_of_lt_of_le (by decide) h) (by decide)

/-- `AvatarioAudioTrack.add_new_bytes`: append the incoming bytes to
`audio_data_buffer`, then run the chunk-draining loop. -/
def add_new_bytes (s : AudioTrackState) (data : List Nat) : AudioTrackState :=
  let r := addLoop (s.buffer ++ data) s.queue
  { s with buffer := r.1, queue := r.2 }

theorem addLoop_spec : ∀ (buf : List Nat) (q : List AudioFrame),
    addLoop buf q =
      (buf.drop (AUDIO_CHUNK_SIZE * (fullChunks buf).length),
       List.foldl (fun qq c => pushEvictOldest 10 qq (buildAudioFrames c)) q
         (fullChunks buf)) := by
  intro buf
  induction buf using fullChunks.induct with
  | case1 b h ih =>
      intro q
      rw [addLoop, fullChunks]
      rw [dif_pos h, dif_pos h]
      rw [ih]
      simp only [List.length_cons, List.foldl_cons]
      congr 1
      rw [List.drop_drop]
      congr 1
      ring
  | case2 b h =>
      intro q
      rw [addLoop, fullChunks]
      rw [dif_neg h, dif_neg h]
      simp

theorem fullChunks_flatten (buf : List Nat) :
    (fullChunks buf).flatten ++ buf.drop (AUDIO_CHUNK_SIZE * (fullChunks buf).length) = buf := by
  induction buf using fullChunks.induct with
  | case1 b h ih =>
      rw [fullChunks, dif_pos h]
      simp only [List.flatten_cons, List.length_cons, List.append_assoc]
      have hdrop : b.drop (AUDIO_CHUNK_SIZE * ((fullChunks (b.drop AUDIO_CHUNK_SIZE)).length + 1))
          = (b.drop AUDIO_CHUNK_SIZE).drop
              (AUDIO_CHUNK_SIZE * (fullChunks (b.drop AUDIO_CHUNK_SIZE)).length) := by
        rw [List.drop_drop]
        congr 1
        ring
      rw [hdrop, ih, List.take_append_drop]
  | case2 b h =>
      rw [fullChunks, dif_neg h]
      simp

theorem fullChunks_residual_lt (buf : List Nat) :
    (buf.drop (AUDIO_CHUNK_SIZE * (fullChunks buf).length)).length < AUDIO_CHUNK_SIZE := by
  induction buf using fullChunks.induct with
  | case1 b h ih =>
      rw [fullChunks, dif_pos h]
      simp only [List.length_cons]
      have hdrop : b.drop (AUDIO_CHUNK_SIZE * ((fullChunks (b.drop AUDIO_CHUNK_SIZE)).length + 1))
          = (b.drop AUDIO_CHUNK_SIZE).drop
              (AUDIO_CHUNK_SIZE * (fullChunks (b.drop AUDIO_CHUNK_SIZE)).length) := by
        rw [List.drop_drop]
        congr 1
        ring
      rw [hdrop]
      exact ih
  | case2 b h =>
      rw [fullChunks, dif_neg h]
      simp only [List.length_nil, Nat.mul_zero, List.drop_zero]
      omega

theorem fullChunks_mem_length (buf : List Nat) :
    ∀ c ∈ fullChunks buf, c.length = AUDIO_CHUNK_SIZE := by
  induction buf using fullChunks.induct with
  | case1 b h ih =>
      intro c hc
      rw [fullChunks, dif_pos h, List.mem_cons] at hc
      rcases hc with hc | hc
      · subst hc
        simp only [List.length_take]
        have hcs : AUDIO_CHUNK_SIZE = 1920 := rfl
        omega
      · exact ih c hc
  | case2 b h =>
      intro c hc
      rw [fullChunks, dif_neg h] at hc
      simp at hc

/-- Claim C10: after every call to `add_new_bytes` the residual raw-byte
buffer holds strictly fewer than `chunk_size` (1920) bytes; exactly the
complete leading 1920-byte chunks of the concatenated buffered bytes are
converted into frames and pushed onto the bounded frame queue in order
(oldest-eviction applying when it is full), and the remainder is retained
as the new buffer (chunks and remainder re-assemble the whole input). -/
theorem add_new_bytes_invariant (s : AudioTrackState) (data : List Nat) :
    (add_new_bytes s data).buffer =
      (s.buffer ++ data).drop (AUDIO_CHUNK_SIZE * (fullChunks (s.buffer ++ data)).length) ∧
    (add_new_bytes s data).buffer.length < AUDIO_CHUNK_SIZE ∧
    (add_new_bytes s data).queue =
      List.foldl (fun q c => pushEvictOldest 10 q (buildAudioFrames c)) s.queue
        (fullChunks (s.buffer ++ data)) ∧
    (fullChunks (s.buffer ++ data)).flatten ++ (add_new_bytes s data).buffer =
      s.buffer ++ data ∧
    (∀ c ∈ fullChunks (s.buffer ++ data), c.length = AUDIO_CHUNK_SIZE) := by
  have hspec := addLoop_spec (s.buffer ++ data) s.queue
  have hbuf : (add_new_bytes s data).buffer =
      (s.buffer ++ data).drop (AUDIO_CHUNK_SIZE * (fullChunks (s.buffer ++ data)).length) := by
    unfold add_new_bytes
    rw [hspec]
  have hq : (add_new_bytes s data).queue =
      List.foldl (fun q c => pushEvictOldest 10 q (buildAudioFrames c)) s.queue
        (fullChunks (s.buffer ++ data)) := by
    unfold add_new_bytes
    rw [hspec]
  refine ⟨hbuf, ?_, hq, ?_, fullChunks_mem_length _⟩
  · rw [hbuf]
    exact fullChunks_residual_lt _
  · rw [hbuf]
    exact fullChunks_flatten _

/-- Concrete instance of C10: three new bytes on a two-byte buffer stay
below the 1920-byte chunk threshold and are retained in full. -/
theorem add_new_bytes_invariant_witness :
    (add_new_bytes ⟨"live", false, 0, [], [1, 2]⟩ [3]).buffer =
      (([1, 2] : List Nat) ++ [3]).drop
        (AUDIO_CHUNK_SIZE * (fullChunks (([1, 2] : List Nat) ++ [3])).length) ∧
    (add_new_bytes ⟨"live", false, 0, [], [1, 2]⟩ [3]).buffer.length < AUDIO_CHUNK_SIZE ∧
    (add_new_bytes ⟨"live", false, 0, [], [1, 2]⟩ [3]).queue =
      List.foldl (fun q c => pushEvictOldest 10 q (buildAudioFrames c)) []
        (fullChunks (([1, 2] : List Nat) ++ [3])) ∧
    (fullChunks (([1, 2] : List Nat) ++ [3])).flatten ++
        (add_new_bytes ⟨"live", false, 0, [], [1, 2]⟩ [3]).buffer =
      ([1, 2] : List Nat) ++ [3] ∧
    (∀ c ∈ fullChunks (([1, 2] : List Nat) ++ [3]), c.length = AUDIO_CHUNK_SIZE) :=
  add_new_bytes_invariant ⟨"live", false, 0, [], [1, 2]⟩ [3]

end Avatario
